import Mathlib

/-!
Verification of the TicketDashboard status-timeline and SLA engine.

The development shallowly embeds the per-ticket pipeline of `app.py`
(event normalization, timeline building, per-status duration aggregation,
SLA evaluation) and, for the divergence result, the alternative duration
aggregation of `sla.py`.  Timestamps are modelled as integer seconds
(`Instant := Int`); statuses and priorities are strings; Python's
truthiness of optional strings is modelled with `Option`; the uncaught
parse exception of `dateutil` is modelled with `Except String`.
-/

namespace TicketDashboard

/-- Timestamps, in seconds (arbitrary epoch). -/
abbrev Instant := Int

/-- Python `str.upper()` (character-wise upper-casing). -/
def toUpperStr (s : String) : String := String.mk (s.data.map Char.toUpper)

/-- Whether `needle` occurs at the start of `hay` (character lists). -/
def startsWithCL : List Char → List Char → Bool
  | [], _ => true
  | _ :: _, [] => false
  | a :: as, b :: bs => a == b && startsWithCL as bs

/-- Python's substring test `needle in hay`, on character lists. -/
def containsTok (needle : List Char) : List Char → Bool
  | [] => startsWithCL needle []
  | b :: bs => startsWithCL needle (b :: bs) || containsTok needle bs

/-- app.py `VALID_STATUSES`. -/
def VALID_STATUSES : List String :=
  ["OPEN", "WORK IN PROGRESS", "IN REVIEW", "COMPLETED", "CANCELLED", "CANCELED", "CLOSED"]

/-- app.py `FINAL_STATUSES`. -/
def FINAL_STATUSES : List String :=
  ["COMPLETED", "CLOSED", "CANCELLED", "CANCELED"]

/-- app.py `SLA_MINUTES`: insertion-ordered priority-token/budget table. -/
def SLA_MINUTES : List (String × Int) :=
  [("HIGHEST", 2 * 60), ("HIGH", 4 * 60), ("MEDIUM", 24 * 60), ("LOW", 48 * 60),
   ("LOWEST", 60 * 60)]

/-- The `for key, minutes in SLA_MINUTES.items()` loop of `get_sla_minutes`:
first token of the table contained in the upper-cased priority wins. -/
def lookupSla : List (String × Int) → String → Option Int
  | [], _ => none
  | (key, minutes) :: rest, pu =>
    if containsTok key.data pu.data then some minutes else lookupSla rest pu

/-- app.py `get_sla_minutes`: `None`/empty priority yields no budget; otherwise
the priority text is upper-cased and matched against the table in order. -/
def get_sla_minutes : Option String → Option Int
  | none => none
  | some p => if p = "" then none else lookupSla SLA_MINUTES (toUpperStr p)

/-- A normalized status-change triple (app.py lines 87-95): upper-cased
`from` (None for a missing/empty source status), upper-cased `to`, and the
parsed history timestamp. -/
structure StatusChange where
  fromStr : Option String
  toStr : String
  time : Instant
deriving DecidableEq

/-- Comparison of status changes by timestamp (the `key=lambda x: x["time"]`
of the stable sort at app.py line 97). -/
def byTime : StatusChange → StatusChange → Prop := fun a b => a.time ≤ b.time

instance : DecidableRel byTime := fun a b => inferInstanceAs (Decidable (a.time ≤ b.time))

instance : IsTotal StatusChange byTime := ⟨fun a b => le_total a.time b.time⟩

instance : IsTrans StatusChange byTime := ⟨fun _ _ _ h1 h2 => le_trans h1 h2⟩

/-- app.py line 97: stable sort of the status changes by timestamp.
(Python's sort is stable; a stable sort's output is unique, so insertion
sort is a faithful model.) -/
def sortChanges (cs : List StatusChange) : List StatusChange :=
  List.insertionSort byTime cs

/-- app.py lines 100-103: the timeline's initial status is the `from` of the
first (time-sorted) change when that `from` is present, else the ticket's
upper-cased current status. -/
def initial_status : List StatusChange → String → String
  | [], cur => toUpperStr cur
  | c :: _, cur =>
    match c.fromStr with
    | some s => s
    | none => toUpperStr cur

/-- Comparison of timeline entries by timestamp (the `key=lambda x: x[1]` of
the stable sort at app.py line 112). -/
def byTs : (String × Instant) → (String × Instant) → Prop := fun a b => a.2 ≤ b.2

instance : DecidableRel byTs := fun a b => inferInstanceAs (Decidable (a.2 ≤ b.2))

instance : IsTotal (String × Instant) byTs := ⟨fun a b => le_total a.2 b.2⟩

instance : IsTrans (String × Instant) byTs := ⟨fun _ _ _ h1 h2 => le_trans h1 h2⟩

/-- app.py lines 108-110: one timeline entry per sorted change whose `to`
status is recognized. -/
def transitionEntries (scs : List StatusChange) : List (String × Instant) :=
  scs.filterMap fun c =>
    if c.toStr ∈ VALID_STATUSES then some (c.toStr, c.time) else none

/-- app.py lines 105-110: the entries appended to `timeline` before the final
sort, in emission order — the creation-derived entry (when its status is
recognized) followed by the transition entries. -/
def emittedEntries (scs : List StatusChange) (cur : String) (created_time : Instant) :
    List (String × Instant) :=
  (if initial_status scs cur ∈ VALID_STATUSES
    then [(initial_status scs cur, created_time)] else [])
    ++ transitionEntries scs

/-- app.py lines 99-112: the full timeline, stably sorted by timestamp. -/
def timeline (cs : List StatusChange) (cur : String) (created_time : Instant) :
    List (String × Instant) :=
  List.insertionSort byTs (emittedEntries (sortChanges cs) cur created_time)

/-- Contribution of one timeline segment `[start, stop)` held in `status` to
the duration bucket of `s` (app.py lines 120-124): terminal statuses are
skipped, non-positive segments contribute nothing. -/
def segConsider (status : String) (start stop : Instant) (s : String) : Int :=
  if status ∈ FINAL_STATUSES then 0
  else if start < stop then (if status = s then stop - start else 0) else 0

/-- app.py lines 114-124: accumulated seconds spent in status `s`, each
segment bounded by the next entry's timestamp, the last by the resolution
boundary. -/
def time_in_status : List (String × Instant) → Instant → String → Int
  | [], _, _ => 0
  | (st, start) :: rest, resolution_time, s =>
    segConsider st start
        (match rest with
         | [] => resolution_time
         | (_, t) :: _ => t) s
      + time_in_status rest resolution_time s

/-- app.py line 126. -/
def open_min (tl : List (String × Instant)) (res : Instant) : Int :=
  time_in_status tl res "OPEN" / 60

/-- app.py line 127. -/
def wip_min (tl : List (String × Instant)) (res : Instant) : Int :=
  time_in_status tl res "WORK IN PROGRESS" / 60

/-- app.py line 128. -/
def review_min (tl : List (String × Instant)) (res : Instant) : Int :=
  time_in_status tl res "IN REVIEW" / 60

/-- app.py line 129. -/
def completed_min (tl : List (String × Instant)) (res : Instant) : Int :=
  time_in_status tl res "COMPLETED" / 60

/-- app.py line 130: the two spellings are merged into one field. -/
def cancelled_min (tl : List (String × Instant)) (res : Instant) : Int :=
  (time_in_status tl res "CANCELLED" + time_in_status tl res "CANCELED") / 60

/-- app.py line 131. -/
def closed_min (tl : List (String × Instant)) (res : Instant) : Int :=
  time_in_status tl res "CLOSED" / 60

/-- app.py line 133. -/
def time_to_resolution_min (tl : List (String × Instant)) (res : Instant) : Int :=
  open_min tl res + wip_min tl res + review_min tl res

/-- The SLA verdict; `unknown` models the Python `None` verdict. -/
inductive SlaVerdict where
  | met
  | breached
  | unknown
deriving DecidableEq

/-- app.py lines 137-146: verdict and breach minutes from an optional budget
and the time-to-resolution. -/
def sla_status (sla_minutes : Option Int) (ttr : Int) : SlaVerdict × Int :=
  match sla_minutes with
  | none => (SlaVerdict.unknown, 0)
  | some b => if b < ttr then (SlaVerdict.breached, ttr - b) else (SlaVerdict.met, 0)

/-- sla.py lines 104-107: the alternative aggregation — no terminal
skipping, no non-positive guard, and the final open-ended segment is bounded
by the current time `now` even when the ticket is resolved. -/
def time_in_status_sla : List (String × Instant) → Instant → String → Int
  | [], _, _ => 0
  | (st, start) :: rest, now, s =>
    (if st = s then
        (match rest with
         | [] => now
         | (_, t) :: _ => t) - start
      else 0)
      + time_in_status_sla rest now s

/-- One raw field-change item of a history entry (app.py lines 89-93). -/
structure RawItem where
  field : String
  fromString : Option String
  toString : String
deriving DecidableEq

/-- One raw history entry with its unparsed timestamp. -/
structure RawHistory where
  created : String
  items : List RawItem
deriving DecidableEq

/-- The raw per-ticket input consumed by the pipeline. -/
structure RawTicket where
  key : String
  created : String
  resolutiondate : Option String
  status : String
  priority : Option String
  histories : List RawHistory
deriving DecidableEq

/-- The derived output fields of one CSV row (app.py lines 148-177). -/
structure Row where
  key : String
  status : String
  priority : Option String
  openMin : Int
  wipMin : Int
  reviewMin : Int
  completedMin : Int
  cancelledMin : Int
  closedMin : Int
  ttrMin : Int
  slaVerdict : SlaVerdict
  timeBreachedMin : Int
deriving DecidableEq

/-- `dateutil.parser.parse` as an abstract parser: on failure it raises
`ValueError("Unknown string format: <text>")`, modelled as an `Except.error`
carrying exactly that message. -/
def parseTs (parse : String → Option Instant) (s : String) : Except String Instant :=
  match parse s with
  | some t => Except.ok t
  | none => Except.error ("Unknown string format: " ++ s)

/-- app.py lines 89-95 for the items of one history entry: the history
timestamp is parsed only when a status item is present; a parse failure
propagates (the Python exception aborts the loop). -/
def normalizeItems (parse : String → Option Instant) (hCreated : String) :
    List RawItem → Except String (List StatusChange)
  | [] => Except.ok []
  | it :: rest =>
    if it.field = "status" then
      match parseTs parse hCreated with
      | Except.error e => Except.error e
      | Except.ok t =>
        match normalizeItems parse hCreated rest with
        | Except.error e => Except.error e
        | Except.ok cs =>
          Except.ok
            ({ fromStr :=
                match it.fromString with
                | some f => if f = "" then none else some (toUpperStr f)
                | none => none,
               toStr := toUpperStr it.toString,
               time := t } :: cs)
    else normalizeItems parse hCreated rest

/-- app.py lines 87-95 over all history entries. -/
def normalizeHistories (parse : String → Option Instant) :
    List RawHistory → Except String (List StatusChange)
  | [] => Except.ok []
  | h :: rest =>
    match normalizeItems parse h.created h.items with
    | Except.error e => Except.error e
    | Except.ok cs =>
      match normalizeHistories parse rest with
      | Except.error e => Except.error e
      | Except.ok cs2 => Except.ok (cs ++ cs2)

/-- app.py lines 84-146 for one ticket: parse the creation timestamp, then
the resolution timestamp (falling back to `now`), then the history; any
parse failure propagates and no row is produced. -/
def processTicket (parse : String → Option Instant) (now : Instant) (t : RawTicket) :
    Except String Row :=
  match parseTs parse t.created with
  | Except.error e => Except.error e
  | Except.ok created_time =>
    match
      (match t.resolutiondate with
       | some r => parseTs parse r
       | none => Except.ok now) with
    | Except.error e => Except.error e
    | Except.ok resolution_time =>
      match normalizeHistories parse t.histories with
      | Except.error e => Except.error e
      | Except.ok status_changes =>
        let tl := timeline status_changes t.status created_time
        let om := open_min tl resolution_time
        let wm := wip_min tl resolution_time
        let rm := review_min tl resolution_time
        let ttr := om + wm + rm
        let sv := sla_status (get_sla_minutes t.priority) ttr
        Except.ok
          { key := t.key, status := t.status, priority := t.priority,
            openMin := om, wipMin := wm, reviewMin := rm,
            completedMin := completed_min tl resolution_time,
            cancelledMin := cancelled_min tl resolution_time,
            closedMin := closed_min tl resolution_time,
            ttrMin := ttr, slaVerdict := sv.1, timeBreachedMin := sv.2 }

/-- A concrete parser for witnesses: recognizes two fixed timestamps. -/
def parseFixed : String → Option Instant := fun s =>
  if s = "2026-01-17T00:00:00+00:00" then some 0
  else if s = "2026-01-17T01:30:00+00:00" then some 5400
  else none

/-! ### Supporting lemmas -/

theorem segConsider_of_final {status : String} (a b : Instant) (s : String)
    (h : status ∈ FINAL_STATUSES) : segConsider status a b s = 0 := by
  simp [segConsider, h]

theorem segConsider_of_final_key (status : String) (a b : Instant) {s : String}
    (h : s ∈ FINAL_STATUSES) : segConsider status a b s = 0 := by
  by_cases h1 : status ∈ FINAL_STATUSES
  · simp [segConsider, h1]
  · have hne : status ≠ s := fun he => h1 (he ▸ h)
    simp [segConsider, h1, hne]

theorem segConsider_nonneg (status : String) (a b : Instant) (s : String) :
    0 ≤ segConsider status a b s := by
  unfold segConsider
  by_cases h1 : status ∈ FINAL_STATUSES
  · simp [h1]
  · rw [if_neg h1]
    by_cases h2 : a < b
    · rw [if_pos h2]
      by_cases h3 : status = s
      · rw [if_pos h3]
        exact sub_nonneg.mpr (le_of_lt h2)
      · rw [if_neg h3]
    · rw [if_neg h2]

theorem time_in_status_of_final (tl : List (String × Instant)) (res : Instant) {s : String}
    (h : s ∈ FINAL_STATUSES) : time_in_status tl res s = 0 := by
  induction tl with
  | nil => rfl
  | cons e rest ih =>
    obtain ⟨st, start⟩ := e
    simp only [time_in_status, ih, add_zero]
    exact segConsider_of_final_key st start _ h

theorem time_in_status_nonneg (tl : List (String × Instant)) (res : Instant) (s : String) :
    0 ≤ time_in_status tl res s := by
  induction tl with
  | nil => exact le_refl 0
  | cons e rest ih =>
    obtain ⟨st, start⟩ := e
    simp only [time_in_status]
    exact add_nonneg (segConsider_nonneg st start _ s) ih

theorem lookupSla_eq_find (l : List (String × Int)) (pu : String) :
    lookupSla l pu = (l.find? fun kv => containsTok kv.1.data pu.data).map Prod.snd := by
  induction l with
  | nil => rfl
  | cons kv rest ih =>
    obtain ⟨key, minutes⟩ := kv
    by_cases h : containsTok key.data pu.data = true
    · simp [lookupSla, List.find?_cons, h]
    · rw [Bool.not_eq_true] at h
      simp [lookupSla, List.find?_cons, h, ih]

theorem lookupSla_eq_none (l : List (String × Int)) (pu : String)
    (h : ∀ kv ∈ l, containsTok kv.1.data pu.data = false) : lookupSla l pu = none := by
  induction l with
  | nil => rfl
  | cons kv rest ih =>
    obtain ⟨key, minutes⟩ := kv
    have h1 := h (key, minutes) (List.mem_cons_self _ _)
    simp only [lookupSla, h1, Bool.false_eq_true, if_false]
    exact ih fun kv2 hm => h kv2 (List.mem_cons_of_mem _ hm)

theorem mem_transitionEntries {scs : List StatusChange} {e : String × Instant}
    (he : e ∈ transitionEntries scs) : e.1 ∈ VALID_STATUSES := by
  unfold transitionEntries at he
  rw [List.mem_filterMap] at he
  obtain ⟨c, _hc, hce⟩ := he
  by_cases hv : c.toStr ∈ VALID_STATUSES
  · rw [if_pos hv] at hce
    obtain rfl : (c.toStr, c.time) = e := by injection hce
    exact hv
  · rw [if_neg hv] at hce
    cases hce

theorem filter_orderedInsert (t : Instant) (a : String × Instant) :
    ∀ l : List (String × Instant),
      (List.orderedInsert byTs a l).filter (fun e => e.2 == t)
        = (a :: l).filter (fun e => e.2 == t)
  | [] => rfl
  | b :: l => by
    by_cases hab : byTs a b
    · rw [List.orderedInsert_of_le byTs l hab]
    · have hstep : List.orderedInsert byTs a (b :: l) = b :: List.orderedInsert byTs a l := by
        simp [List.orderedInsert, hab]
      rw [hstep]
      have ih := filter_orderedInsert t a l
      by_cases hb : (b.2 == t) = true
      · have hat : (a.2 == t) = false := by
          rw [beq_eq_false_iff_ne]
          intro hat
          rw [beq_iff_eq] at hb
          exact hab (le_of_eq (hat.trans hb.symm))
        simp [List.filter_cons, ih, hb, hat]
      · rw [Bool.not_eq_true] at hb
        simp [List.filter_cons, ih, hb]

theorem filter_insertionSort (t : Instant) :
    ∀ l : List (String × Instant),
      (List.insertionSort byTs l).filter (fun e => e.2 == t)
        = l.filter (fun e => e.2 == t)
  | [] => rfl
  | a :: l => by
    show (List.orderedInsert byTs a (List.insertionSort byTs l)).filter _ = _
    simp only [filter_orderedInsert, List.filter_cons, filter_insertionSort t l]

/-! ### Claims -/

/-- C1: the duration aggregation attributes a segment to its starting status
only when that status is non-terminal, so a terminal status (COMPLETED,
CANCELLED, CANCELED, CLOSED) accumulates zero seconds — never positive
minutes — for every timeline and every resolution boundary. -/
theorem C1_terminal_exclusion (tl : List (String × Instant)) (res : Instant) (s : String)
    (h : s ∈ FINAL_STATUSES) :
    time_in_status tl res s = 0
    ∧ ∀ (st : String) (a b : Instant) (s2 : String),
        st ∈ FINAL_STATUSES → segConsider st a b s2 = 0 :=
  ⟨time_in_status_of_final tl res h, fun _st a b s2 hst => segConsider_of_final a b s2 hst⟩

theorem C1_terminal_exclusion_witness :
    "COMPLETED" ∈ FINAL_STATUSES
    ∧ time_in_status [("COMPLETED", 0), ("OPEN", 60)] 100 "COMPLETED" = 0 :=
  ⟨by decide,
   (C1_terminal_exclusion [("COMPLETED", 0), ("OPEN", 60)] 100 "COMPLETED" (by decide)).1⟩

/-- C2: the built timeline is non-decreasing in timestamps; the sort is
stable — entries sharing a timestamp keep their emission order — and the
creation-derived entry, when present, stays ahead of every transition entry
carrying the same timestamp. -/
theorem C2_timeline_sorted_stable (cs : List StatusChange) (cur : String) (ct : Instant) :
    List.Pairwise byTs (timeline cs cur ct)
    ∧ (∀ t : Instant, (timeline cs cur ct).filter (fun e => e.2 == t)
        = (emittedEntries (sortChanges cs) cur ct).filter (fun e => e.2 == t))
    ∧ (initial_status (sortChanges cs) cur ∈ VALID_STATUSES →
        ((timeline cs cur ct).filter (fun e => e.2 == ct)).head?
          = some (initial_status (sortChanges cs) cur, ct)) := by
  refine ⟨List.sorted_insertionSort byTs _, fun t => filter_insertionSort t _, ?_⟩
  intro hv
  unfold timeline
  rw [filter_insertionSort]
  unfold emittedEntries
  rw [if_pos hv]
  simp [List.filter_cons]

theorem C2_timeline_sorted_stable_witness :
    initial_status (sortChanges [⟨some "OPEN", "WORK IN PROGRESS", 90⟩]) "Open"
      ∈ VALID_STATUSES
    ∧ ((timeline [⟨some "OPEN", "WORK IN PROGRESS", 90⟩] "Open" 0).filter
          (fun e => e.2 == 0)).head?
        = some (initial_status (sortChanges [⟨some "OPEN", "WORK IN PROGRESS", 90⟩]) "Open", 0) :=
  ⟨by decide,
   (C2_timeline_sorted_stable [⟨some "OPEN", "WORK IN PROGRESS", 90⟩] "Open" 0).2.2 (by decide)⟩

/-- C3: the budget lookup scans the table in its fixed order (HIGHEST, HIGH,
MEDIUM, LOW, LOWEST) and returns the budget of the first token contained in
the upper-cased priority text; in particular the text HIGHEST resolves to the
HIGHEST budget of 120 minutes, not the HIGH budget of 240. -/
theorem C3_priority_precedence (p : String) (hp : p ≠ "") :
    get_sla_minutes (some p)
      = (SLA_MINUTES.find? fun kv => containsTok kv.1.data (toUpperStr p).data).map Prod.snd
    ∧ SLA_MINUTES.map Prod.fst = ["HIGHEST", "HIGH", "MEDIUM", "LOW", "LOWEST"]
    ∧ get_sla_minutes (some "HIGHEST") = some 120
    ∧ get_sla_minutes (some "HIGHEST") ≠ some 240 := by
  refine ⟨?_, by decide, by decide, by decide⟩
  simp only [get_sla_minutes, hp, if_false]
  exact lookupSla_eq_find SLA_MINUTES (toUpperStr p)

theorem C3_priority_precedence_witness :
    ("HIGHEST" : String) ≠ "" ∧ get_sla_minutes (some "HIGHEST") = some 120 :=
  ⟨by decide, (C3_priority_precedence "HIGHEST" (by decide)).2.2.1⟩

/-- C4: with a matched budget `b`, the verdict is Breached with
breachMinutes `t - b` exactly when `t > b` and Met with zero breach
otherwise; increasing `t` never turns Breached into Met, and exceeding the
budget by `d` gives breachMinutes exactly `d`. -/
theorem C4_sla_monotonic (b t : Int) :
    (b < t → sla_status (some b) t = (SlaVerdict.breached, t - b))
    ∧ (t ≤ b → sla_status (some b) t = (SlaVerdict.met, 0))
    ∧ (∀ t2, t ≤ t2 → (sla_status (some b) t).1 = SlaVerdict.breached →
        (sla_status (some b) t2).1 = SlaVerdict.breached)
    ∧ (∀ d : Int, 0 < d → t = b + d → (sla_status (some b) t).2 = d) := by
  refine ⟨?_, ?_, ?_, ?_⟩
  · intro h
    simp [sla_status, h]
  · intro h
    simp [sla_status, not_lt.mpr h]
  · intro t2 h12 hbr
    by_cases hb : b < t
    · have hb2 : b < t2 := lt_of_lt_of_le hb h12
      simp [sla_status, hb2]
    · simp [sla_status, hb] at hbr
  · intro d hd ht
    subst ht
    have hb : b < b + d := by omega
    simp [sla_status, hb]

theorem C4_sla_monotonic_witness :
    (240 : Int) < 300 ∧ sla_status (some 240) 300 = (SlaVerdict.breached, 60) := by
  refine ⟨by norm_num, ?_⟩
  have h := (C4_sla_monotonic 240 300).1 (by norm_num)
  simpa using h

/-- C5: the app.py aggregation (terminal segments skipped, final segment
bounded by the resolution timestamp) and the sla.py aggregation (terminal
time folded into a final segment bounded by the current time) disagree: for
a ticket whose timeline reaches COMPLETED at 60s, is resolved at 60s and is
processed at 120s, the former charges COMPLETED zero seconds and the latter
sixty. -/
theorem C5_variants_differ :
    time_in_status [("OPEN", 0), ("COMPLETED", 60)] 60 "COMPLETED" = 0
    ∧ time_in_status_sla [("OPEN", 0), ("COMPLETED", 60)] 120 "COMPLETED" = 60
    ∧ time_in_status [("OPEN", 0), ("COMPLETED", 60)] 60 "COMPLETED"
        ≠ time_in_status_sla [("OPEN", 0), ("COMPLETED", 60)] 120 "COMPLETED" := by
  refine ⟨by decide, by decide, by decide⟩

/-- C6 (amended): the initial status is the `from` of the chronologically
earliest triple when that `from` is non-null, and otherwise — no triple, or a
null `from` — the ticket's upper-cased current status; the creation-derived
pair is emitted first exactly when the initial status is recognized. -/
theorem C6_initial_status_amended (cs : List StatusChange) (cur : String) (ct : Instant) :
    initial_status (sortChanges cs) cur
      = ((sortChanges cs).head?.bind StatusChange.fromStr).getD (toUpperStr cur)
    ∧ (∀ h0, (sortChanges cs).head? = some h0 → ∀ c ∈ cs, h0.time ≤ c.time)
    ∧ (initial_status (sortChanges cs) cur ∈ VALID_STATUSES ↔
        (emittedEntries (sortChanges cs) cur ct).head?
          = some (initial_status (sortChanges cs) cur, ct)) := by
  refine ⟨?_, ?_, ?_⟩
  · cases h : sortChanges cs with
    | nil => simp [initial_status]
    | cons c rest => cases hc : c.fromStr <;> simp [initial_status, hc]
  · intro h0 hh c hcmem
    have hsorted : List.Sorted byTime (sortChanges cs) := List.sorted_insertionSort byTime cs
    have hmem : c ∈ sortChanges cs := by
      unfold sortChanges
      rw [List.mem_insertionSort]
      exact hcmem
    cases hsc : sortChanges cs with
    | nil =>
      rw [hsc] at hh
      cases hh
    | cons a rest =>
      rw [hsc] at hh hmem hsorted
      injection hh with hh
      subst hh
      rcases List.mem_cons.mp hmem with rfl | hmem2
      · exact le_refl _
      · exact List.rel_of_sorted_cons hsorted c hmem2
  · constructor
    · intro hv
      unfold emittedEntries
      rw [if_pos hv]
      rfl
    · intro hh
      by_contra hv
      unfold emittedEntries at hh
      rw [if_neg hv] at hh
      simp only [List.nil_append] at hh
      cases hts : transitionEntries (sortChanges cs) with
      | nil =>
        rw [hts] at hh
        cases hh
      | cons e rest =>
        rw [hts] at hh
        simp only [List.head?_cons, Option.some.injEq] at hh
        have hev : e.1 ∈ VALID_STATUSES :=
          mem_transitionEntries (hts ▸ List.mem_cons_self e rest)
        rw [hh] at hev
        exact hv hev

/-- C6 (counterexample): the claim as stated — whenever at least one triple
exists the initial status is the `from` of the earliest triple — fails when
that `from` is null: the code falls back to the current status instead. -/
theorem C6_initial_status_counterexample :
    ¬ (∀ (cs : List StatusChange) (cur : String), cs ≠ [] →
        some (initial_status (sortChanges cs) cur)
          = (sortChanges cs).head?.bind StatusChange.fromStr) := by
  intro h
  exact absurd (h [⟨none, "OPEN", 0⟩] "Closed" (by decide)) (by decide)

theorem C6_initial_status_amended_witness :
    initial_status (sortChanges [⟨some "OPEN", "WORK IN PROGRESS", 5400⟩]) "Completed"
      = "OPEN" := by
  have h := (C6_initial_status_amended [⟨some "OPEN", "WORK IN PROGRESS", 5400⟩]
    "Completed" 0).1
  simpa using h

/-- C7: an absent priority, or one whose upper-cased text contains none of
the five tokens, yields the Unknown verdict with zero breach for every
time-to-resolution, with no failure. -/
theorem C7_unknown_verdict (p : Option String) (ttr : Int)
    (h : p = none ∨ ∃ s, p = some s ∧
        ∀ kv ∈ SLA_MINUTES, containsTok kv.1.data (toUpperStr s).data = false) :
    sla_status (get_sla_minutes p) ttr = (SlaVerdict.unknown, 0) := by
  rcases h with rfl | ⟨s, rfl, hall⟩
  · rfl
  · have hnone : get_sla_minutes (some s) = none := by
      by_cases hs : s = ""
      · simp [get_sla_minutes, hs]
      · simp only [get_sla_minutes, hs, if_false]
        exact lookupSla_eq_none SLA_MINUTES (toUpperStr s) hall
    rw [hnone]
    rfl

theorem C7_unknown_verdict_witness :
    sla_status (get_sla_minutes (some "URGENT")) 1000000 = (SlaVerdict.unknown, 0) :=
  C7_unknown_verdict (some "URGENT") 1000000 (Or.inr ⟨"URGENT", rfl, by decide⟩)

/-- C8: every accumulated duration and every derived minute field is
non-negative, breachMinutes is non-negative, and a segment whose end is not
after its start contributes exactly zero. -/
theorem C8_nonnegativity (tl : List (String × Instant)) (res : Instant) (s : String) :
    0 ≤ time_in_status tl res s
    ∧ 0 ≤ open_min tl res ∧ 0 ≤ wip_min tl res ∧ 0 ≤ review_min tl res
    ∧ 0 ≤ completed_min tl res ∧ 0 ≤ cancelled_min tl res ∧ 0 ≤ closed_min tl res
    ∧ 0 ≤ time_to_resolution_min tl res
    ∧ (∀ (m : Option Int) (t : Int), 0 ≤ (sla_status m t).2)
    ∧ (∀ (st : String) (a b : Instant), b ≤ a → segConsider st a b s = 0) := by
  have hs : ∀ s2, (0 : Int) ≤ time_in_status tl res s2 := fun s2 =>
    time_in_status_nonneg tl res s2
  have hdiv : ∀ x : Int, 0 ≤ x → 0 ≤ x / 60 := fun x hx =>
    Int.ediv_nonneg hx (by norm_num)
  refine ⟨hs s, hdiv _ (hs _), hdiv _ (hs _), hdiv _ (hs _), hdiv _ (hs _),
    hdiv _ (add_nonneg (hs _) (hs _)), hdiv _ (hs _),
    add_nonneg (add_nonneg (hdiv _ (hs _)) (hdiv _ (hs _))) (hdiv _ (hs _)), ?_, ?_⟩
  · intro m t
    cases m with
    | none => simp [sla_status]
    | some b =>
      by_cases hb : b < t
      · simp only [sla_status, if_pos hb]
        omega
      · simp [sla_status, hb]
  · intro st a b hba
    unfold segConsider
    by_cases h1 : st ∈ FINAL_STATUSES
    · rw [if_pos h1]
    · rw [if_neg h1, if_neg (not_lt.mpr hba)]

theorem C8_nonnegativity_witness :
    0 ≤ time_in_status [("OPEN", 5), ("OPEN", 5)] 5 "OPEN"
    ∧ (5 : Int) ≤ 5 ∧ segConsider "OPEN" 5 5 "OPEN" = 0 :=
  ⟨(C8_nonnegativity [("OPEN", 5), ("OPEN", 5)] 5 "OPEN").1, le_refl 5,
   (C8_nonnegativity [("OPEN", 5), ("OPEN", 5)] 5 "OPEN").2.2.2.2.2.2.2.2.2
     "OPEN" 5 5 (le_refl 5)⟩

/-- C9: evaluating the pipeline at tickets with a malformed creation,
resolution, or history timestamp — the parse failure propagates and no row
is produced, but the failure carries only the unparseable text, naming
neither the ticket nor the field. -/
theorem C9_parse_failure_propagates :
    processTicket parseFixed 7200 ⟨"GNOC-1", "garbage", none, "Open", some "High", []⟩
      = Except.error "Unknown string format: garbage"
    ∧ processTicket parseFixed 7200
        ⟨"GNOC-2", "2026-01-17T00:00:00+00:00", some "not-a-date", "Open", some "High", []⟩
      = Except.error "Unknown string format: not-a-date"
    ∧ processTicket parseFixed 7200
        ⟨"GNOC-3", "2026-01-17T00:00:00+00:00", none, "Open", some "High",
          [⟨"bogus", [⟨"status", some "Open", "Completed"⟩]⟩]⟩
      = Except.error "Unknown string format: bogus" :=
  ⟨rfl, rfl, rfl⟩

/-- C10: the output minute fields of the terminal statuses — COMPLETED,
CANCELLED (with CANCELED merged in), CLOSED — are unconditionally zero,
since terminal segments are skipped before accumulation. -/
theorem C10_terminal_fields_zero (tl : List (String × Instant)) (res : Instant) :
    completed_min tl res = 0 ∧ cancelled_min tl res = 0 ∧ closed_min tl res = 0 := by
  have h1 := time_in_status_of_final tl res (s := "COMPLETED") (by decide)
  have h2 := time_in_status_of_final tl res (s := "CANCELLED") (by decide)
  have h3 := time_in_status_of_final tl res (s := "CANCELED") (by decide)
  have h4 := time_in_status_of_final tl res (s := "CLOSED") (by decide)
  refine ⟨?_, ?_, ?_⟩ <;>
    simp [completed_min, cancelled_min, closed_min, h1, h2, h3, h4]

end TicketDashboard
